import Mathlib

/-
Verification of serving_utils (client.py): a round-robin connection pool with
dynamic DNS reconciliation and retry/failover logic.

The embedding follows src/serving_utils/client.py.  The RoundRobinMap data
structure itself lives in serving_utils/round_robin_map.py, which is not among
the provided source files (client.py only imports it); its operations are
modelled from the specification (sections 4.1 and 9) and are marked
"Modelled from the spec" below.
-/

namespace ServingUtils

/-- A gRPC blocking-style channel handle (grpc.insecure_channel /
grpc.secure_channel in Connection.__init__): `target` is the "addr:port"
string; `closed` records whether the handle was ever closed.  client.py
contains no call that closes a channel, so no operation of this development
sets `closed` to true. -/
structure GrpcChannel where
  target : String
  closed : Bool
deriving DecidableEq

/-- A grpclib concurrent-style channel (Channel(addr, port, loop=loop) in
Connection.__init__). -/
structure AsyncChannel where
  addr : String
  port : Nat
  closed : Bool
deriving DecidableEq

/-- Connection.__init__ in client.py: one backend's bundle of live transport
handles.  The two stubs are built on, and bound 1:1 to, the two channels, so
observing the channels observes the stubs; the model records the channels. -/
structure Connection where
  addr : String
  port : Nat
  sync_channel : GrpcChannel
  async_channel : AsyncChannel
deriving DecidableEq

/-- Constructing Connection(addr, port, pem, channel_options, loop): both
channels are opened (hence not closed) and both stubs are built on them. -/
def Connection.make (addr : String) (port : Nat) : Connection :=
  { addr := addr
    port := port
    sync_channel := { target := addr ++ ":" ++ toString port, closed := false }
    async_channel := { addr := addr, port := port, closed := false } }

/-- Modelled from the spec: serving_utils/round_robin_map.py is not among the
source files (client.py imports RoundRobinMap from it).  Spec section 4.1 and
the design notes of section 9 describe it as an ordered, index-addressable
sequence of (Address, Connection) pairs together with a rotation cursor stored
as an index modulo the current length. -/
structure RoundRobinMap where
  entries : List (String × Connection)
  cursor : Nat
deriving DecidableEq

/-- The pool's current membership, `self._pool.keys()`. -/
def RoundRobinMap.keys (m : RoundRobinMap) : List String :=
  m.entries.map Prod.fst

/-- The EmptyPool exception of client.py: selection from an empty pool. -/
inductive PoolErr where
  | emptyPool
deriving DecidableEq

/-- Modelled from the spec: select_next returns the entry under the rotation
cursor and advances the cursor past it, failing with EmptyPool when no entries
exist.  In client.py this selection is reached through next(iter(self._pool))
inside get_round_robin_stub and list_models, which translate StopIteration
into EmptyPool("no connections"). -/
def RoundRobinMap.selectNext (m : RoundRobinMap) :
    Except PoolErr ((String × Connection) × RoundRobinMap) :=
  if h : m.entries.length = 0 then .error .emptyPool
  else
    .ok (m.entries.get ⟨m.cursor % m.entries.length,
           Nat.mod_lt _ (Nat.pos_of_ne_zero h)⟩,
         { entries := m.entries
           cursor := (m.cursor % m.entries.length + 1) % m.entries.length })

/-- Modelled from the spec: deletion of the first (hence, with unique keys, the
only) entry whose key matches. -/
def removeEntries : List (String × Connection) → String → List (String × Connection)
  | [], _ => []
  | e :: rest, k => if e.1 = k then rest else e :: removeEntries rest k

/-- Modelled from the spec: remove(address) deletes the entry if present and is
a no-op if absent; per the design notes, removal of an entry whose index
precedes the cursor decrements the cursor to keep rotation continuity. -/
def RoundRobinMap.remove (m : RoundRobinMap) (k : String) : RoundRobinMap :=
  if m.keys.contains k then
    { entries := removeEntries m.entries k
      cursor :=
        if m.entries.findIdx (fun e => e.1 == k) < m.cursor
        then m.cursor - 1 else m.cursor }
  else m

/-- Modelled from the spec: upsert(address, connection) appends a new entry when
the key is absent.  A present key is a caller precondition violation (the spec
prescribes an error there; `_setup_connections` only inserts keys that are
absent from the pool, and the model leaves the map unchanged in that
unreachable case). -/
def RoundRobinMap.insert (m : RoundRobinMap) (k : String) (v : Connection) :
    RoundRobinMap :=
  if m.keys.contains k then m
  else { m with entries := m.entries ++ [(k, v)] }

/-- Membership equality of two address lists viewed as sets: the comparison
`original_addrs == current_addrs` in `_setup_connections` is between Python
sets, i.e. it holds exactly when the two have the same members. -/
def sameSet (xs ys : List String) : Bool :=
  xs.all (fun a => ys.contains a) && ys.all (fun a => xs.contains a)

/-- Client._setup_connections: resolve the host (the resolver's answer is the
`current` argument here), return unchanged on the fast path where membership
already agrees, otherwise delete the connections at missing addresses and
insert fresh connections at new addresses. -/
def setupConnections (pool : RoundRobinMap) (current : List String) (port : Nat) :
    RoundRobinMap :=
  if sameSet pool.keys current then pool
  else
    let missing := pool.keys.filter (fun a => !current.contains a)
    let pool1 := missing.foldl RoundRobinMap.remove pool
    let newAddrs := current.filter (fun a => !pool.keys.contains a)
    newAddrs.foldl (fun p a => p.insert a (Connection.make a port)) pool1

/-- The Connection objects dropped from the pool by `_setup_connections` (the
values stored at the `missing` addresses).  client.py only executes
`del self._pool[address]` for them; this definition makes the dropped objects
observable so their channel state after eviction can be stated. -/
def evictedConnections (pool : RoundRobinMap) (current : List String) :
    List Connection :=
  if sameSet pool.keys current then []
  else
    let missing := pool.keys.filter (fun a => !current.contains a)
    (pool.entries.filter (fun e => missing.contains e.1)).map Prod.snd

/-- The addresses produced by `n` consecutive round-robin selections
(each one a next(iter(self._pool)) as in get_round_robin_stub), threading the
pool state; an empty pool stops the run. -/
def selectAddrs : Nat → RoundRobinMap → List String
  | 0, _ => []
  | n + 1, m =>
    match m.selectNext with
    | .error _ => []
    | .ok (e, m') => e.1 :: selectAddrs n m'

/-- Character-list test: does `needle` occur at the head of `haystack`. -/
def startsWithChars : List Char → List Char → Bool
  | [], _ => true
  | _ :: _, [] => false
  | a :: as, b :: bs => a == b && startsWithChars as bs

/-- Character-list test: does `needle` occur as a contiguous run of `haystack`. -/
def containsChars (needle : List Char) : List Char → Bool
  | [] => startsWithChars needle []
  | c :: rest => startsWithChars needle (c :: rest) || containsChars needle rest

/-- The Python membership test `"Model" in text` used by the fatal-error
classification in predict (on e.details()) and async_predict (on e.message). -/
def containsModel (text : String) : Bool :=
  containsChars ("Model".toList) text.toList

/-- Default value handed to getD lookups (all lookups here are in range). -/
def dStr : String := ""

/-- grpc.StatusCode.NOT_FOUND and grpclib Status.NOT_FOUND both carry the gRPC
status-code value 5. -/
def NOT_FOUND : Nat := 5

/-- Outcome of one stub.Predict(request) call on the blocking surface:
success, a grpc.RpcError with a status code and details text, or any other
exception. -/
inductive SyncCallOutcome where
  | success
  | rpcErr (code : Nat) (details : String)
  | otherErr (text : String)
deriving DecidableEq

/-- Outcome of one awaited stub.Predict(request) call on the concurrent
surface: success, an asyncio.CancelledError, a GRPCError with a status and
message, or any other exception. -/
inductive AsyncCallOutcome where
  | success
  | cancelled
  | grpcErr (status : Nat) (message : String)
  | otherErr (text : String)
deriving DecidableEq

/-- An error appended to the `errors` list of the retry loop. -/
inductive ErrRecord where
  | emptyPool
  | rpcErr (code : Nat) (text : String)
  | otherErr (text : String)
deriving DecidableEq

/-- How a predict / async_predict call terminates: a parsed response from the
backend at some address, an unwrapped fatal error re-raised by `raise`, a
propagated CancelledError, or RetryFailed carrying the recorded errors. -/
inductive PredictOutcome where
  | ok (addr : String)
  | fatal (code : Nat) (text : String)
  | cancelledProp
  | retryFailed (errors : List ErrRecord)
deriving DecidableEq

/-- The client's mutable state visible to this model: the pool, the number of
DNS resolutions performed (gethostbyname_ex calls), and the number of
stub.Predict calls issued. -/
structure ClientState where
  pool : RoundRobinMap
  resCount : Nat
  callCount : Nat
deriving DecidableEq

/-- The external world: what gethostbyname_ex returns on the j-th resolution,
and how the backend at a given address answers the i-th Predict call on each
surface. -/
structure Env where
  resolver : Nat → List String
  callSync : Nat → String → SyncCallOutcome
  callAsync : Nat → String → AsyncCallOutcome

/-- One `self._setup_connections()` call: resolve the host and reconcile the
pool, counting the resolution. -/
def doSetup (env : Env) (port : Nat) (s : ClientState) : ClientState :=
  { pool := setupConnections s.pool (env.resolver s.resCount) port
    resCount := s.resCount + 1
    callCount := s.callCount }

/-- The `for _ in range(self.n_trys)` loop of Client.predict, one constructor
case per except clause: EmptyPool from get_round_robin_stub is logged, a
reconciliation runs and the error is recorded; a grpc.RpcError whose code is
NOT_FOUND with "Model" in its details is re-raised unwrapped; every other
grpc.RpcError and every other exception is logged, a reconciliation runs and
the error is recorded; on success the loop breaks; when the budget is
exhausted the for-else raises RetryFailed with the recorded errors. -/
def predictAttempts (env : Env) (port : Nat) :
    Nat → ClientState → List ErrRecord → PredictOutcome × ClientState
  | 0, s, errs => (.retryFailed errs, s)
  | n + 1, s, errs =>
    match s.pool.selectNext with
    | .error _ =>
      predictAttempts env port n (doSetup env port s) (errs ++ [.emptyPool])
    | .ok (e, pool') =>
      let s1 : ClientState :=
        { pool := pool', resCount := s.resCount, callCount := s.callCount + 1 }
      match env.callSync s.callCount e.1 with
      | .success => (.ok e.1, s1)
      | .rpcErr code details =>
        if code == NOT_FOUND && containsModel details then
          (.fatal code details, s1)
        else
          predictAttempts env port n (doSetup env port s1)
            (errs ++ [.rpcErr code details])
      | .otherErr text =>
        predictAttempts env port n (doSetup env port s1) (errs ++ [.otherErr text])

/-- Client.predict: reconcile the pool first (self._setup_connections()),
build the request (external), then run the retry loop. -/
def predictModel (env : Env) (port nTrys : Nat) (pool₀ : RoundRobinMap) :
    PredictOutcome × ClientState :=
  predictAttempts env port nTrys (doSetup env port ⟨pool₀, 0, 0⟩) []

/-- The retry loop of Client.async_predict.  Identical to the blocking loop
except that asyncio.CancelledError is re-raised by its own first except clause
and that the fatal test reads e.status / e.message of a GRPCError. -/
def asyncPredictAttempts (env : Env) (port : Nat) :
    Nat → ClientState → List ErrRecord → PredictOutcome × ClientState
  | 0, s, errs => (.retryFailed errs, s)
  | n + 1, s, errs =>
    match s.pool.selectNext with
    | .error _ =>
      asyncPredictAttempts env port n (doSetup env port s) (errs ++ [.emptyPool])
    | .ok (e, pool') =>
      let s1 : ClientState :=
        { pool := pool', resCount := s.resCount, callCount := s.callCount + 1 }
      match env.callAsync s.callCount e.1 with
      | .success => (.ok e.1, s1)
      | .cancelled => (.cancelledProp, s1)
      | .grpcErr status message =>
        if status == NOT_FOUND && containsModel message then
          (.fatal status message, s1)
        else
          asyncPredictAttempts env port n (doSetup env port s1)
            (errs ++ [.rpcErr status message])
      | .otherErr text =>
        asyncPredictAttempts env port n (doSetup env port s1)
          (errs ++ [.otherErr text])

/-- Client.async_predict: reconcile first, then run the retry loop. -/
def asyncPredictModel (env : Env) (port nTrys : Nat) (pool₀ : RoundRobinMap) :
    PredictOutcome × ClientState :=
  asyncPredictAttempts env port nTrys (doSetup env port ⟨pool₀, 0, 0⟩) []

/-- Client.list_models: takes one pool member via next(iter(self._pool)),
translating StopIteration into EmptyPool("no connections"), and issues a
ListModels call on its channel (external).  It performs no reconciliation and
consults no resolver: it only reads the pool it is given. -/
def listModels (pool : RoundRobinMap) : Except PoolErr (String × RoundRobinMap) :=
  match pool.selectNext with
  | .error e => .error e
  | .ok (e, pool') => .ok (e.1, pool')

/-- A backend answer on the blocking surface that the retry loop treats as
retryable: not a success and not a fatal NOT_FOUND-with-"Model" error. -/
def retryableSync (o : SyncCallOutcome) : Bool :=
  match o with
  | .success => false
  | .rpcErr code details => !(code == NOT_FOUND && containsModel details)
  | .otherErr _ => true

/-- Concrete fixture: the address 1.2.3.4. -/
def addrA : String := "1.2.3.4"

/-- Concrete fixture: the address 5.6.7.8. -/
def addrB : String := "5.6.7.8"

/-- Concrete fixture: the address 9.10.11.12. -/
def addrC : String := "9.10.11.12"

/-- Concrete fixture: a fatal backend answer, NOT_FOUND details naming the
model. -/
def fatalMsg : String := "Model test_model not found"

/-- Concrete fixture: a NOT_FOUND text that does not name a model. -/
def plainMsg : String := "no such entity"

/-- Concrete fixture: a generic retryable failure text. -/
def resetMsg : String := "connection reset"

/-- Concrete fixture: a fresh connection to 1.2.3.4:9999. -/
def connW : Connection := Connection.make addrA 9999

/-- Concrete fixture: a pool holding only connW. -/
def poolW1 : RoundRobinMap := ⟨[(addrA, connW)], 0⟩

/-- Concrete fixture: a pool with three addresses, cursor mid-rotation. -/
def poolW3 : RoundRobinMap :=
  ⟨[(addrA, Connection.make addrA 9999),
    (addrB, Connection.make addrB 9999),
    (addrC, Connection.make addrC 9999)], 2⟩

/-- Concrete fixture: an environment whose backend always fails with a
retryable transport error and whose resolver always answers with one
address. -/
def envRetryW : Env :=
  { resolver := fun _ => [addrA]
    callSync := fun _ _ => .otherErr resetMsg
    callAsync := fun _ _ => .otherErr resetMsg }

/-- Concrete fixture: an environment whose resolver always answers with the
empty address set. -/
def envZeroW : Env :=
  { resolver := fun _ => []
    callSync := fun _ _ => .success
    callAsync := fun _ _ => .success }

/-- Concrete fixture: an environment whose backend always reports the fatal
model-not-found condition on both surfaces. -/
def envFatalW : Env :=
  { resolver := fun _ => [addrA]
    callSync := fun _ _ => .rpcErr 5 fatalMsg
    callAsync := fun _ _ => .grpcErr 5 fatalMsg }

/-- Concrete fixture: an environment whose backend always fails with NOT_FOUND
whose text lacks the substring "Model". -/
def envNotFoundW : Env :=
  { resolver := fun _ => [addrA]
    callSync := fun _ _ => .rpcErr 5 plainMsg
    callAsync := fun _ _ => .grpcErr 5 plainMsg }

/-- Concrete fixture: an environment whose concurrent-surface call is
cancelled by the caller. -/
def envCancelW : Env :=
  { resolver := fun _ => [addrA]
    callSync := fun _ _ => .success
    callAsync := fun _ _ => .cancelled }

/-! ### Round-robin fairness -/

theorem selectAddrs_eq_range (n : Nat) :
    ∀ (l : List (String × Connection)) (c : Nat), l ≠ [] →
    selectAddrs n ⟨l, c⟩ =
      (List.range n).map (fun i => (l.map Prod.fst).getD ((c + i) % l.length) dStr) := by
  induction n with
  | zero => intro l c _; simp [selectAddrs]
  | succ n ih =>
    intro l c hl
    have hL : l.length ≠ 0 := by simpa using hl
    have hLpos : 0 < l.length := Nat.pos_of_ne_zero hL
    rw [List.range_succ_eq_map, List.map_cons, List.map_map]
    have hsel : selectAddrs (n + 1) ⟨l, c⟩ =
        (l.get ⟨c % l.length, Nat.mod_lt _ hLpos⟩).1 ::
          selectAddrs n ⟨l, (c % l.length + 1) % l.length⟩ := by
      simp only [selectAddrs, RoundRobinMap.selectNext, hL, dite_false]
    rw [hsel, ih l ((c % l.length + 1) % l.length) hl]
    congr 1
    · have hlt : (c + 0) % l.length < (l.map Prod.fst).length := by
        simpa using Nat.mod_lt c hLpos
      rw [List.getD_eq_getElem _ _ hlt]
      simp
    · apply List.map_congr_left
      intro i _
      have hidx : ((c % l.length + 1) % l.length + i) % l.length =
          (c + Nat.succ i) % l.length := by
        rw [Nat.mod_add_mod, Nat.add_assoc, Nat.mod_add_mod, Nat.succ_eq_add_one,
          Nat.add_comm 1 i]
      have hidx2 : c + 1 + i = c + (i + 1) := by omega
      simp [Function.comp, hidx, hidx2]

theorem range_map_mod_perm (L c : Nat) (hL : 0 < L) :
    ((List.range L).map (fun i => (c + i) % L)).Perm (List.range L) := by
  have hsub : ((List.range L).map (fun i => (c + i) % L)) ⊆ List.range L := by
    intro a ha
    rcases List.mem_map.mp ha with ⟨i, _, rfl⟩
    exact List.mem_range.mpr (Nat.mod_lt _ hL)
  have hnd : ((List.range L).map (fun i => (c + i) % L)).Nodup := by
    refine List.Nodup.map_on ?_ (List.nodup_range L)
    intro x hx y hy hxy
    have hx' : x < L := List.mem_range.mp hx
    have hy' : y < L := List.mem_range.mp hy
    have hm : Nat.ModEq L (c + x) (c + y) := hxy
    have hmod : x % L = y % L := Nat.ModEq.add_left_cancel' c hm
    rwa [Nat.mod_eq_of_lt hx', Nat.mod_eq_of_lt hy'] at hmod
  exact (hnd.subperm hsub).perm_of_length_le (by simp)

theorem range_map_getD (ks : List String) :
    (List.range ks.length).map (fun j => ks.getD j dStr) = ks := by
  apply List.ext_getElem
  · simp
  · intro i h1 h2
    have hi : i < ks.length := by simpa using h1
    simp [List.getD_eq_getElem _ _ hi, List.getElem?_eq_getElem hi]

theorem selectRun_perm_keys (m : RoundRobinMap) (hne : 0 < m.entries.length) :
    (selectAddrs m.entries.length m).Perm m.keys := by
  have hl : m.entries ≠ [] := by
    intro h; rw [h] at hne; simp at hne
  have h1 := selectAddrs_eq_range m.entries.length m.entries m.cursor hl
  have h2 : m = ⟨m.entries, m.cursor⟩ := rfl
  rw [← h2] at h1
  have e1 : selectAddrs m.entries.length m =
      ((List.range m.entries.length).map
          (fun i => (m.cursor + i) % m.entries.length)).map
        (fun j => (m.entries.map Prod.fst).getD j dStr) := by
    rw [h1, List.map_map]
    simp [Function.comp]
  have e2 : (List.range m.entries.length).map
      (fun j => (m.entries.map Prod.fst).getD j dStr) = m.entries.map Prod.fst := by
    have hks : (m.entries.map Prod.fst).length = m.entries.length := by simp
    rw [← hks, range_map_getD (m.entries.map Prod.fst)]
  show (selectAddrs m.entries.length m).Perm (m.entries.map Prod.fst)
  rw [e1]
  refine ((range_map_mod_perm m.entries.length m.cursor hne).map
    (fun j => (m.entries.map Prod.fst).getD j dStr)).trans ?_
  rw [e2]

/-- C1: for a pool with K addresses and stable membership, K consecutive
round-robin selections (each a next(iter(pool)) as in get_round_robin_stub)
visit each of the K addresses exactly once before any address repeats — the
selection run is a permutation of the key list, it has no duplicates whenever
the keys are distinct, and any pool holding the same addresses in any
insertion order yields a selection run that is a permutation of this one. -/
theorem round_robin_fairness (m : RoundRobinMap) (hne : 0 < m.entries.length) :
    (selectAddrs m.entries.length m).Perm m.keys ∧
    (m.keys.Nodup → (selectAddrs m.entries.length m).Nodup) ∧
    (∀ m' : RoundRobinMap, m'.keys.Perm m.keys →
      (selectAddrs m'.entries.length m').Perm (selectAddrs m.entries.length m)) := by
  refine ⟨selectRun_perm_keys m hne, ?_, ?_⟩
  · intro hnd
    exact ((selectRun_perm_keys m hne).nodup_iff).mpr hnd
  · intro m' hkeys
    have hne' : 0 < m'.entries.length := by
      have hk : m'.keys.length = m.keys.length := hkeys.length_eq
      have h1 : m'.keys.length = m'.entries.length := by simp [RoundRobinMap.keys]
      have h2 : m.keys.length = m.entries.length := by simp [RoundRobinMap.keys]
      omega
    exact (selectRun_perm_keys m' hne').trans
      (hkeys.trans (selectRun_perm_keys m hne).symm)

/-! ### Reconciliation: key-set lemmas -/

theorem keys_removeEntries (l : List (String × Connection)) (k : String) :
    (removeEntries l k).map Prod.fst = (l.map Prod.fst).erase k := by
  induction l with
  | nil => simp [removeEntries]
  | cons e rest ih =>
    by_cases h : e.1 = k
    · simp [removeEntries, h]
    · simp [removeEntries, h, ih, List.erase_cons,
        show ¬(e.1 == k) = true by simpa using h]

theorem remove_keys (m : RoundRobinMap) (k : String) :
    (m.remove k).keys = m.keys.erase k := by
  by_cases h : k ∈ m.keys
  · have hc : m.keys.contains k = true := by simp [h]
    simp only [RoundRobinMap.remove, hc, if_true]
    exact keys_removeEntries m.entries k
  · have hc : m.keys.contains k = false := by simp [h]
    simp only [RoundRobinMap.remove, hc, Bool.false_eq_true, if_false]
    rw [List.erase_of_not_mem h]

theorem foldl_remove_keys (ms : List String) :
    ∀ m : RoundRobinMap,
    (ms.foldl RoundRobinMap.remove m).keys = ms.foldl List.erase m.keys := by
  induction ms with
  | nil => intro m; rfl
  | cons b rest ih =>
    intro m
    simp only [List.foldl_cons]
    rw [ih, remove_keys]

theorem insert_mem_keys (m : RoundRobinMap) (k : String) (v : Connection)
    (a : String) : a ∈ (m.insert k v).keys ↔ a ∈ m.keys ∨ a = k := by
  by_cases h : k ∈ m.keys
  · have hc : m.keys.contains k = true := by simp [h]
    simp only [RoundRobinMap.insert, hc, if_true]
    constructor
    · exact fun ha => Or.inl ha
    · rintro (ha | rfl)
      · exact ha
      · exact h
  · have hc : m.keys.contains k = false := by simp [h]
    simp only [RoundRobinMap.insert, hc, Bool.false_eq_true, if_false]
    show a ∈ (m.entries ++ [(k, v)]).map Prod.fst ↔ a ∈ m.keys ∨ a = k
    simp [RoundRobinMap.keys]

theorem foldl_insert_mem (port : Nat) (as : List String) :
    ∀ (m : RoundRobinMap) (a : String),
    a ∈ (as.foldl (fun p x => p.insert x (Connection.make x port)) m).keys ↔
      a ∈ m.keys ∨ a ∈ as := by
  induction as with
  | nil => intro m a; simp
  | cons b rest ih =>
    intro m a
    simp only [List.foldl_cons]
    rw [ih, insert_mem_keys]
    simp only [List.mem_cons]
    tauto

theorem foldl_erase_mem (ms : List String) :
    ∀ ks : List String, ks.Nodup → ∀ a : String,
    (a ∈ List.foldl List.erase ks ms ↔ a ∈ ks ∧ a ∉ ms) := by
  induction ms with
  | nil => intro ks _ a; simp
  | cons b rest ih =>
    intro ks hnd a
    simp only [List.foldl_cons]
    rw [ih (ks.erase b) (List.Nodup.erase b hnd), List.Nodup.mem_erase_iff hnd]
    simp only [List.mem_cons]
    tauto

theorem foldl_erase_self (l : List String) : List.foldl List.erase l l = [] := by
  induction l with
  | nil => rfl
  | cons a t ih =>
    simp only [List.foldl_cons, List.erase_cons_head]
    exact ih

theorem sameSet_iff (xs ys : List String) :
    sameSet xs ys = true ↔ ∀ a, (a ∈ xs ↔ a ∈ ys) := by
  simp only [sameSet, Bool.and_eq_true, List.all_eq_true]
  constructor
  · rintro ⟨h1, h2⟩ a
    constructor
    · intro ha; simpa using h1 a ha
    · intro ha; simpa using h2 a ha
  · intro h
    constructor
    · intro a ha; simpa using (h a).mp ha
    · intro a ha; simpa using (h a).mpr ha

theorem setup_keys_mem (pool : RoundRobinMap) (cur : List String) (port : Nat)
    (hnd : pool.keys.Nodup) (a : String) :
    a ∈ (setupConnections pool cur port).keys ↔ a ∈ cur := by
  by_cases hs : sameSet pool.keys cur = true
  · rw [setupConnections, if_pos hs]
    exact (sameSet_iff _ _).mp hs a
  · rw [setupConnections, if_neg hs]
    rw [foldl_insert_mem, foldl_remove_keys, foldl_erase_mem _ _ hnd]
    have hmiss : ∀ x : String,
        x ∈ pool.keys.filter (fun b => !cur.contains b) ↔
          x ∈ pool.keys ∧ x ∉ cur := by
      intro x; simp
    have hnew : ∀ x : String,
        x ∈ cur.filter (fun b => !pool.keys.contains b) ↔
          x ∈ cur ∧ x ∉ pool.keys := by
      intro x; simp
    rw [hmiss, hnew]
    by_cases hk : a ∈ pool.keys <;> by_cases hcur : a ∈ cur <;> simp [hk, hcur]

theorem setup_keys_nil (pool : RoundRobinMap) (port : Nat) :
    (setupConnections pool [] port).keys = [] := by
  by_cases hs : sameSet pool.keys [] = true
  · rw [setupConnections, if_pos hs]
    have h := (sameSet_iff _ _).mp hs
    apply List.eq_nil_iff_forall_not_mem.mpr
    intro a ha
    simpa using (h a).mp ha
  · rw [setupConnections, if_neg hs]
    have hfil : pool.keys.filter (fun b => !([] : List String).contains b) =
        pool.keys := by simp
    have hnew : ([] : List String).filter (fun b => !pool.keys.contains b) = [] := by
      simp
    rw [hfil, hnew]
    simp only [List.foldl_nil]
    rw [foldl_remove_keys, foldl_erase_self]

theorem setup_entries_nil (pool : RoundRobinMap) (port : Nat) :
    (setupConnections pool [] port).entries = [] := by
  have h := setup_keys_nil pool port
  exact List.map_eq_nil_iff.mp h

theorem setup_fast (pool : RoundRobinMap) (cur : List String) (port : Nat)
    (h : sameSet pool.keys cur = true) : setupConnections pool cur port = pool := by
  unfold setupConnections
  rw [if_pos h]

/-! ### Claim theorems: reconciliation -/

/-- C2: one run of _setup_connections with resolver answer `cur` makes the
pool's key set equal `cur` whatever the prior pool state; the no-op fast-path
guard then holds, so a second run with the same `cur` changes nothing. -/
theorem reconcile_converges_and_is_idempotent (pool : RoundRobinMap)
    (cur : List String) (port : Nat) (hnd : pool.keys.Nodup) :
    (∀ a, a ∈ (setupConnections pool cur port).keys ↔ a ∈ cur) ∧
    sameSet (setupConnections pool cur port).keys cur = true ∧
    setupConnections (setupConnections pool cur port) cur port =
      setupConnections pool cur port := by
  have hmem := setup_keys_mem pool cur port hnd
  have hfast : sameSet (setupConnections pool cur port).keys cur = true :=
    (sameSet_iff _ _).mpr hmem
  exact ⟨hmem, hfast, setup_fast _ cur port hfast⟩

theorem reconcile_converges_and_is_idempotent_witness :
    poolW1.keys.Nodup ∧
    ((∀ a, a ∈ (setupConnections poolW1 ["5.6.7.8"] 9999).keys ↔
        a ∈ ["5.6.7.8"]) ∧
     sameSet (setupConnections poolW1 ["5.6.7.8"] 9999).keys ["5.6.7.8"] = true ∧
     setupConnections (setupConnections poolW1 ["5.6.7.8"] 9999) ["5.6.7.8"] 9999 =
       setupConnections poolW1 ["5.6.7.8"] 9999) :=
  ⟨by decide,
   reconcile_converges_and_is_idempotent poolW1 ["5.6.7.8"] 9999 (by decide)⟩

theorem round_robin_fairness_witness :
    0 < poolW3.entries.length ∧
    ((selectAddrs poolW3.entries.length poolW3).Perm poolW3.keys ∧
     (poolW3.keys.Nodup → (selectAddrs poolW3.entries.length poolW3).Nodup) ∧
     (∀ m' : RoundRobinMap, m'.keys.Perm poolW3.keys →
       (selectAddrs m'.entries.length m').Perm
         (selectAddrs poolW3.entries.length poolW3))) :=
  ⟨by decide, round_robin_fairness poolW3 (by decide)⟩

/-- C5 as stated fails on the code: evicting 1.2.3.4 from a one-entry pool
(resolver answer is the empty set) drops its Connection from the pool, yet
both of the dropped Connection's transport handles remain open — client.py
executes only `del self._pool[address]` and contains no close call. -/
theorem eviction_does_not_close_channels_cex :
    evictedConnections poolW1 [] = [connW] ∧
    connW.sync_channel.closed = false ∧
    connW.async_channel.closed = false ∧
    (setupConnections poolW1 [] 9999).entries = [] := by
  refine ⟨?_, rfl, rfl, ?_⟩ <;> rfl

/-- C5 amended: reconciliation removes every no-longer-resolved address from
the pool and drops its Connection, but the dropped Connection's transport
handles are not closed — the evicted objects are the pool's original
Connection values, unchanged. -/
theorem eviction_removes_but_never_closes (pool : RoundRobinMap)
    (cur : List String) (port : Nat) (a : String) (c : Connection)
    (hnd : pool.keys.Nodup) (hmem : (a, c) ∈ pool.entries) (hout : a ∉ cur) :
    a ∉ (setupConnections pool cur port).keys ∧
    c ∈ evictedConnections pool cur ∧
    (∀ c' ∈ evictedConnections pool cur, c' ∈ pool.entries.map Prod.snd) := by
  have hka : a ∈ pool.keys := List.mem_map.mpr ⟨(a, c), hmem, rfl⟩
  have hsfalse : ¬(sameSet pool.keys cur = true) := by
    intro hs
    exact hout (((sameSet_iff _ _).mp hs a).mp hka)
  refine ⟨?_, ?_, ?_⟩
  · intro hmem2
    exact hout ((setup_keys_mem pool cur port hnd a).mp hmem2)
  · unfold evictedConnections
    rw [if_neg hsfalse]
    apply List.mem_map.mpr
    refine ⟨(a, c), List.mem_filter.mpr ⟨hmem, ?_⟩, rfl⟩
    have hmm : a ∈ pool.keys.filter (fun b => !cur.contains b) := by
      simp [hka, hout]
    simpa using hmm
  · intro c' hc'
    unfold evictedConnections at hc'
    rw [if_neg hsfalse] at hc'
    rcases List.mem_map.mp hc' with ⟨e', he', rfl⟩
    exact List.mem_map.mpr ⟨e', List.mem_of_mem_filter he', rfl⟩

theorem eviction_removes_but_never_closes_witness :
    poolW1.keys.Nodup ∧ (addrA, connW) ∈ poolW1.entries ∧
    addrA ∉ ([] : List String) ∧
    (addrA ∉ (setupConnections poolW1 [] 9999).keys ∧
     connW ∈ evictedConnections poolW1 [] ∧
     (∀ c' ∈ evictedConnections poolW1 [], c' ∈ poolW1.entries.map Prod.snd)) :=
  ⟨by decide, by simp [poolW1], by simp,
   eviction_removes_but_never_closes poolW1 [] 9999 addrA connW
     (by decide) (by simp [poolW1]) (by simp)⟩

/-- C6 as stated fails on the code: list_models does not run reconciliation.
With an empty pool it raises EmptyPool as-is, while the same call made after
the reconciliation the claim asserts (resolver answering 1.2.3.4) selects the
freshly connected member. -/
theorem list_models_skips_reconciliation_cex :
    listModels ⟨[], 0⟩ = .error .emptyPool ∧
    listModels (setupConnections ⟨[], 0⟩ [addrA] 9999) =
      .ok (addrA, ⟨[(addrA, Connection.make addrA 9999)], 0⟩) := by
  constructor <;> rfl

/-- C6 amended: predict and async_predict run reconciliation at their start,
before any connection is selected, so the pool the first selection draws from
has exactly the resolver's current addresses; list_models performs no
reconciliation — it reads only the pool it is given and raises EmptyPool on
an empty pool no matter what the resolver would answer. -/
theorem predict_reconciles_list_models_does_not (env : Env) (port nTrys : Nat)
    (pool₀ : RoundRobinMap) (hnd : pool₀.keys.Nodup) :
    predictModel env port nTrys pool₀ =
      predictAttempts env port nTrys (doSetup env port ⟨pool₀, 0, 0⟩) [] ∧
    asyncPredictModel env port nTrys pool₀ =
      asyncPredictAttempts env port nTrys (doSetup env port ⟨pool₀, 0, 0⟩) [] ∧
    (∀ a, a ∈ (doSetup env port ⟨pool₀, 0, 0⟩).pool.keys ↔ a ∈ env.resolver 0) ∧
    (∀ pool : RoundRobinMap, pool.entries = [] →
      listModels pool = .error PoolErr.emptyPool) := by
  refine ⟨rfl, rfl, ?_, ?_⟩
  · intro a
    simp only [doSetup]
    exact setup_keys_mem pool₀ (env.resolver 0) port hnd a
  · intro pool hp
    simp [listModels, RoundRobinMap.selectNext, hp]

theorem predict_reconciles_list_models_does_not_witness :
    (poolW1.keys.Nodup) ∧
    (predictModel envRetryW 9999 3 poolW1 =
       predictAttempts envRetryW 9999 3 (doSetup envRetryW 9999 ⟨poolW1, 0, 0⟩) [] ∧
     asyncPredictModel envRetryW 9999 3 poolW1 =
       asyncPredictAttempts envRetryW 9999 3
         (doSetup envRetryW 9999 ⟨poolW1, 0, 0⟩) [] ∧
     (∀ a, a ∈ (doSetup envRetryW 9999 ⟨poolW1, 0, 0⟩).pool.keys ↔
        a ∈ envRetryW.resolver 0) ∧
     (∀ pool : RoundRobinMap, pool.entries = [] →
        listModels pool = .error PoolErr.emptyPool)) :=
  ⟨by decide,
   predict_reconciles_list_models_does_not envRetryW 9999 3 poolW1 (by decide)⟩

/-! ### Claim theorems: retry loop -/

theorem predictAttempts_all_retryable (env : Env) (port : Nat)
    (hretry : ∀ i a, retryableSync (env.callSync i a) = true) :
    ∀ (n : Nat) (s : ClientState) (errs : List ErrRecord),
    ∃ rest : List ErrRecord, rest.length = n ∧
      (predictAttempts env port n s errs).1 = .retryFailed (errs ++ rest) := by
  intro n
  induction n with
  | zero =>
    intro s errs
    exact ⟨[], rfl, by simp [predictAttempts]⟩
  | succ n ih =>
    intro s errs
    cases hsel : s.pool.selectNext with
    | error e =>
      obtain ⟨rest, hlen, hres⟩ := ih (doSetup env port s) (errs ++ [.emptyPool])
      refine ⟨.emptyPool :: rest, by simp [hlen], ?_⟩
      have hstep : predictAttempts env port (n + 1) s errs =
          predictAttempts env port n (doSetup env port s) (errs ++ [.emptyPool]) := by
        simp only [predictAttempts, hsel]
      rw [hstep, hres]
      simp
    | ok pr =>
      obtain ⟨e, pool'⟩ := pr
      cases hco : env.callSync s.callCount e.1 with
      | success =>
        exfalso
        have hr := hretry s.callCount e.1
        rw [hco] at hr
        simp [retryableSync] at hr
      | rpcErr code details =>
        have hr := hretry s.callCount e.1
        rw [hco] at hr
        have hf : (code == NOT_FOUND && containsModel details) = false := by
          cases hb : (code == NOT_FOUND && containsModel details)
          · rfl
          · have h2 : retryableSync (SyncCallOutcome.rpcErr code details) = false := by
              simp [retryableSync, hb]
            rw [h2] at hr
            exact absurd hr Bool.false_ne_true
        obtain ⟨rest, hlen, hres⟩ :=
          ih (doSetup env port ⟨pool', s.resCount, s.callCount + 1⟩)
            (errs ++ [.rpcErr code details])
        refine ⟨.rpcErr code details :: rest, by simp [hlen], ?_⟩
        have hstep : predictAttempts env port (n + 1) s errs =
            predictAttempts env port n
              (doSetup env port ⟨pool', s.resCount, s.callCount + 1⟩)
              (errs ++ [.rpcErr code details]) := by
          simp only [predictAttempts, hsel, hco, hf, Bool.false_eq_true, if_false]
        rw [hstep, hres]
        simp
      | otherErr text =>
        obtain ⟨rest, hlen, hres⟩ :=
          ih (doSetup env port ⟨pool', s.resCount, s.callCount + 1⟩)
            (errs ++ [.otherErr text])
        refine ⟨.otherErr text :: rest, by simp [hlen], ?_⟩
        have hstep : predictAttempts env port (n + 1) s errs =
            predictAttempts env port n
              (doSetup env port ⟨pool', s.resCount, s.callCount + 1⟩)
              (errs ++ [.otherErr text]) := by
          simp only [predictAttempts, hsel, hco]
        rw [hstep, hres]
        simp

/-- C3: when every backend answer is retryable, predict exhausts its whole
n_trys budget and raises RetryFailed carrying exactly n_trys recorded errors;
moreover every attempt appends its error at the end of the list, so the
payload lists the errors in the order the attempts failed. -/
theorem retry_budget (env : Env) (port nTrys : Nat) (pool₀ : RoundRobinMap)
    (hretry : ∀ i a, retryableSync (env.callSync i a) = true) :
    (∃ errs : List ErrRecord,
       (predictModel env port nTrys pool₀).1 = .retryFailed errs ∧
       errs.length = nTrys) ∧
    (∀ (n : Nat) (s : ClientState) (errs0 : List ErrRecord),
       ∃ rest : List ErrRecord, rest.length = n ∧
         (predictAttempts env port n s errs0).1 = .retryFailed (errs0 ++ rest)) := by
  have h := predictAttempts_all_retryable env port hretry
  constructor
  · obtain ⟨rest, hlen, hres⟩ := h nTrys (doSetup env port ⟨pool₀, 0, 0⟩) []
    exact ⟨rest, by simpa [predictModel] using hres, hlen⟩
  · exact h

theorem retry_budget_witness :
    (∀ i a, retryableSync (envRetryW.callSync i a) = true) ∧
    ((∃ errs : List ErrRecord,
        (predictModel envRetryW 9999 3 ⟨[], 0⟩).1 = .retryFailed errs ∧
        errs.length = 3) ∧
     (∀ (n : Nat) (s : ClientState) (errs0 : List ErrRecord),
        ∃ rest : List ErrRecord, rest.length = n ∧
          (predictAttempts envRetryW 9999 n s errs0).1 =
            .retryFailed (errs0 ++ rest))) :=
  ⟨fun _ _ => rfl, retry_budget envRetryW 9999 3 ⟨[], 0⟩ (fun _ _ => rfl)⟩

/-- C4: on any attempt of predict or async_predict, a backend error with code
NOT_FOUND whose text holds "Model" aborts the whole call at once: the result
is the unwrapped fatal error whatever the remaining budget `n`, no recorded
errors are aggregated, exactly this one backend call was consumed, and no
further backend call or reconciliation happens. -/
theorem fatal_short_circuit (env : Env) (port n : Nat) (s : ClientState)
    (errs : List ErrRecord) (e : String × Connection) (pool' : RoundRobinMap)
    (code : Nat) (text : String)
    (hsel : s.pool.selectNext = .ok (e, pool'))
    (hfatal : (code == NOT_FOUND && containsModel text) = true)
    (hsync : env.callSync s.callCount e.1 = .rpcErr code text)
    (hasync : env.callAsync s.callCount e.1 = .grpcErr code text) :
    predictAttempts env port (n + 1) s errs =
      (.fatal code text,
       { pool := pool', resCount := s.resCount, callCount := s.callCount + 1 }) ∧
    asyncPredictAttempts env port (n + 1) s errs =
      (.fatal code text,
       { pool := pool', resCount := s.resCount, callCount := s.callCount + 1 }) := by
  constructor
  · simp only [predictAttempts, hsel, hsync, hfatal, if_true]
  · simp only [asyncPredictAttempts, hsel, hasync, hfatal, if_true]

theorem fatal_short_circuit_witness :
    (poolW1.selectNext = .ok ((addrA, connW), ⟨poolW1.entries, 0⟩)) ∧
    ((5 == NOT_FOUND && containsModel fatalMsg) = true) ∧
    (predictAttempts envFatalW 9999 3 ⟨poolW1, 0, 0⟩ [] =
       (.fatal 5 fatalMsg,
        { pool := ⟨poolW1.entries, 0⟩, resCount := 0, callCount := 1 }) ∧
     asyncPredictAttempts envFatalW 9999 3 ⟨poolW1, 0, 0⟩ [] =
       (.fatal 5 fatalMsg,
        { pool := ⟨poolW1.entries, 0⟩, resCount := 0, callCount := 1 })) :=
  ⟨rfl, rfl,
   fatal_short_circuit envFatalW 9999 2 ⟨poolW1, 0, 0⟩ []
     (addrA, connW) ⟨poolW1.entries, 0⟩ 5 fatalMsg
     rfl rfl rfl rfl⟩

theorem predictAttempts_empty_resolver (env : Env) (port : Nat)
    (hres : ∀ j, env.resolver j = []) :
    ∀ (n : Nat) (s : ClientState), s.pool.entries = [] → ∀ errs,
    (predictAttempts env port n s errs).1 =
      .retryFailed (errs ++ List.replicate n ErrRecord.emptyPool) := by
  intro n
  induction n with
  | zero =>
    intro s _ errs
    simp [predictAttempts]
  | succ n ih =>
    intro s hp errs
    have hsel : s.pool.selectNext = .error .emptyPool := by
      simp [RoundRobinMap.selectNext, hp]
    have hsetup : (doSetup env port s).pool.entries = [] := by
      simp only [doSetup]
      rw [hres s.resCount]
      exact setup_entries_nil s.pool port
    have hstep : predictAttempts env port (n + 1) s errs =
        predictAttempts env port n (doSetup env port s) (errs ++ [.emptyPool]) := by
      simp only [predictAttempts, hsel]
    rw [hstep, ih (doSetup env port s) hsetup (errs ++ [ErrRecord.emptyPool])]
    simp [List.replicate_succ]

/-- C7: when the resolver always answers with the empty set, the pool is (and
stays) empty across every attempt, each selection fails with EmptyPool rather
than any silent default, and predict raises RetryFailed carrying one EmptyPool
record per attempt. -/
theorem scale_to_zero (env : Env) (port nTrys : Nat) (pool₀ : RoundRobinMap)
    (hres : ∀ j, env.resolver j = []) :
    (predictModel env port nTrys pool₀).1 =
      .retryFailed (List.replicate nTrys ErrRecord.emptyPool) ∧
    (∀ m : RoundRobinMap, m.entries = [] →
      m.selectNext = .error PoolErr.emptyPool) := by
  constructor
  · have h0 : (doSetup env port ⟨pool₀, 0, 0⟩).pool.entries = [] := by
      simp only [doSetup]
      rw [hres 0]
      exact setup_entries_nil pool₀ port
    have h := predictAttempts_empty_resolver env port hres nTrys
      (doSetup env port ⟨pool₀, 0, 0⟩) h0 []
    simpa [predictModel] using h
  · intro m hm
    simp [RoundRobinMap.selectNext, hm]

theorem scale_to_zero_witness :
    (∀ j, envZeroW.resolver j = []) ∧
    ((predictModel envZeroW 9999 3 poolW1).1 =
       .retryFailed (List.replicate 3 ErrRecord.emptyPool) ∧
     (∀ m : RoundRobinMap, m.entries = [] →
       m.selectNext = .error PoolErr.emptyPool)) :=
  ⟨fun _ => rfl, scale_to_zero envZeroW 9999 3 poolW1 (fun _ => rfl)⟩

/-- C8: on the concurrent surface, a cancellation of the pending call is
propagated immediately: the outcome is the propagated cancellation for any
remaining budget `n`, it is never turned into a RetryFailed aggregate, no
error is recorded, and only this one backend call was consumed. -/
theorem cancellation_propagates (env : Env) (port n : Nat) (s : ClientState)
    (errs : List ErrRecord) (e : String × Connection) (pool' : RoundRobinMap)
    (hsel : s.pool.selectNext = .ok (e, pool'))
    (hcanc : env.callAsync s.callCount e.1 = .cancelled) :
    asyncPredictAttempts env port (n + 1) s errs =
      (.cancelledProp,
       { pool := pool', resCount := s.resCount, callCount := s.callCount + 1 }) ∧
    (∀ l, (asyncPredictAttempts env port (n + 1) s errs).1 ≠ .retryFailed l) := by
  have h : asyncPredictAttempts env port (n + 1) s errs =
      (.cancelledProp,
       { pool := pool', resCount := s.resCount, callCount := s.callCount + 1 }) := by
    simp only [asyncPredictAttempts, hsel, hcanc]
  refine ⟨h, ?_⟩
  intro l
  rw [h]
  simp

theorem cancellation_propagates_witness :
    (poolW1.selectNext = .ok ((addrA, connW), ⟨poolW1.entries, 0⟩)) ∧
    (envCancelW.callAsync 0 addrA = .cancelled) ∧
    (asyncPredictAttempts envCancelW 9999 3 ⟨poolW1, 0, 0⟩ [] =
       (.cancelledProp,
        { pool := ⟨poolW1.entries, 0⟩, resCount := 0, callCount := 1 }) ∧
     (∀ l, (asyncPredictAttempts envCancelW 9999 3 ⟨poolW1, 0, 0⟩ []).1 ≠
        .retryFailed l)) :=
  ⟨rfl, rfl,
   cancellation_propagates envCancelW 9999 2 ⟨poolW1, 0, 0⟩ []
     (addrA, connW) ⟨poolW1.entries, 0⟩ rfl rfl⟩

/-- C9: a NOT_FOUND error whose text lacks the substring "Model" is not
fatal: on both surfaces the attempt records it into the error list, runs a
reconciliation, and continues with one unit of budget consumed — the loop
proceeds exactly as for any retryable error. -/
theorem notfound_without_model_is_retryable (env : Env) (port n : Nat)
    (s : ClientState) (errs : List ErrRecord) (e : String × Connection)
    (pool' : RoundRobinMap) (text : String)
    (hsel : s.pool.selectNext = .ok (e, pool'))
    (hnotext : containsModel text = false)
    (hsync : env.callSync s.callCount e.1 = .rpcErr NOT_FOUND text)
    (hasync : env.callAsync s.callCount e.1 = .grpcErr NOT_FOUND text) :
    predictAttempts env port (n + 1) s errs =
      predictAttempts env port n
        (doSetup env port
          { pool := pool', resCount := s.resCount, callCount := s.callCount + 1 })
        (errs ++ [.rpcErr NOT_FOUND text]) ∧
    asyncPredictAttempts env port (n + 1) s errs =
      asyncPredictAttempts env port n
        (doSetup env port
          { pool := pool', resCount := s.resCount, callCount := s.callCount + 1 })
        (errs ++ [.rpcErr NOT_FOUND text]) := by
  have hf : (NOT_FOUND == NOT_FOUND && containsModel text) = false := by
    simp [hnotext]
  constructor
  · simp only [predictAttempts, hsel, hsync, hf, Bool.false_eq_true, if_false]
  · simp only [asyncPredictAttempts, hsel, hasync, hf, Bool.false_eq_true, if_false]

theorem notfound_without_model_is_retryable_witness :
    (containsModel plainMsg = false) ∧
    (predictAttempts envNotFoundW 9999 3 ⟨poolW1, 0, 0⟩ [] =
       predictAttempts envNotFoundW 9999 2
         (doSetup envNotFoundW 9999
           { pool := ⟨poolW1.entries, 0⟩, resCount := 0, callCount := 1 })
         ([] ++ [.rpcErr NOT_FOUND plainMsg]) ∧
     asyncPredictAttempts envNotFoundW 9999 3 ⟨poolW1, 0, 0⟩ [] =
       asyncPredictAttempts envNotFoundW 9999 2
         (doSetup envNotFoundW 9999
           { pool := ⟨poolW1.entries, 0⟩, resCount := 0, callCount := 1 })
         ([] ++ [.rpcErr NOT_FOUND plainMsg])) :=
  ⟨rfl,
   notfound_without_model_is_retryable envNotFoundW 9999 2 ⟨poolW1, 0, 0⟩ []
     (addrA, connW) ⟨poolW1.entries, 0⟩ plainMsg rfl rfl rfl rfl⟩

/-- C10: when a fatal model-not-found error arrives after earlier attempts
already recorded retryable errors, the fatal error propagates alone on both
surfaces: the outcome carries only the fatal code and text, and it is not a
RetryFailed aggregate, so every previously recorded error is discarded. -/
theorem fatal_discards_recorded_errors (env : Env) (port n : Nat)
    (s : ClientState) (errs : List ErrRecord) (e : String × Connection)
    (pool' : RoundRobinMap) (code : Nat) (text : String)
    (hprev : errs ≠ [])
    (hsel : s.pool.selectNext = .ok (e, pool'))
    (hfatal : (code == NOT_FOUND && containsModel text) = true)
    (hsync : env.callSync s.callCount e.1 = .rpcErr code text)
    (hasync : env.callAsync s.callCount e.1 = .grpcErr code text) :
    (predictAttempts env port (n + 1) s errs).1 = .fatal code text ∧
    (asyncPredictAttempts env port (n + 1) s errs).1 = .fatal code text ∧
    (∀ l, (predictAttempts env port (n + 1) s errs).1 ≠ .retryFailed l) ∧
    (∀ l, (asyncPredictAttempts env port (n + 1) s errs).1 ≠ .retryFailed l) := by
  have h1 : (predictAttempts env port (n + 1) s errs).1 = .fatal code text := by
    simp only [predictAttempts, hsel, hsync, hfatal, if_true]
  have h2 : (asyncPredictAttempts env port (n + 1) s errs).1 = .fatal code text := by
    simp only [asyncPredictAttempts, hsel, hasync, hfatal, if_true]
  refine ⟨h1, h2, ?_, ?_⟩
  · intro l; rw [h1]; simp
  · intro l; rw [h2]; simp

theorem fatal_discards_recorded_errors_witness :
    ([ErrRecord.emptyPool] ≠ ([] : List ErrRecord)) ∧
    ((5 == NOT_FOUND && containsModel fatalMsg) = true) ∧
    ((predictAttempts envFatalW 9999 3 ⟨poolW1, 0, 0⟩ [ErrRecord.emptyPool]).1 =
       .fatal 5 fatalMsg ∧
     (asyncPredictAttempts envFatalW 9999 3 ⟨poolW1, 0, 0⟩
         [ErrRecord.emptyPool]).1 = .fatal 5 fatalMsg ∧
     (∀ l, (predictAttempts envFatalW 9999 3 ⟨poolW1, 0, 0⟩
         [ErrRecord.emptyPool]).1 ≠ .retryFailed l) ∧
     (∀ l, (asyncPredictAttempts envFatalW 9999 3 ⟨poolW1, 0, 0⟩
         [ErrRecord.emptyPool]).1 ≠ .retryFailed l)) :=
  ⟨by simp, rfl,
   fatal_discards_recorded_errors envFatalW 9999 2 ⟨poolW1, 0, 0⟩
     [ErrRecord.emptyPool] (addrA, connW) ⟨poolW1.entries, 0⟩ 5
     fatalMsg (by simp) rfl rfl rfl rfl⟩

end ServingUtils
